import Mathlib

/-!
Shallow embedding of the snake-playing bot's perception and planning core
(`SnakeBot`): grid cells, the four directions, the whole-snake breadth-first
path search (`findPath`), the cluster refinement and snake reconstruction of
the perception pipeline, and the control-loop step that reconciles predicted
heads and dispatches directional commands.

Modelling conventions:
* JS numbers used as grid coordinates are modelled as `Int` (the search probes
  off-grid candidates such as `x = -1` before rejecting them).
* JS string key sets (`coordKey`, `bodyKey`) are in bijection with the cells /
  cell lists they serialize, so key sets are modelled as lists of the keyed
  values themselves, with membership by equality.
* Brightness values (pixel luma averages) are modelled as rationals; only
  their ordering is used by the code.
* The JS `while` loops are modelled with an explicit fuel argument chosen
  large enough that the fuel can only run out after the loop's own exit
  condition has already fired, so the fuel-exhaustion branch is dead code.
-/

namespace SnakeBot

/-- A grid cell `{x, y}`. -/
structure Cell where
  x : Int
  y : Int
deriving DecidableEq

/-- A direction entry of `DIRS` `{dx, dy, key, name}`. -/
structure Dir where
  dx : Int
  dy : Int
  key : String
  name : String
deriving DecidableEq

def dirUp : Dir := { dx := 0, dy := -1, key := "ArrowUp", name := "up" }

def dirRight : Dir := { dx := 1, dy := 0, key := "ArrowRight", name := "right" }

def dirDown : Dir := { dx := 0, dy := 1, key := "ArrowDown", name := "down" }

def dirLeft : Dir := { dx := -1, dy := 0, key := "ArrowLeft", name := "left" }

/-- `DIRS`, in source order: up, right, down, left. -/
def DIRS : List Dir := [dirUp, dirRight, dirDown, dirLeft]

/-- Default cell used where the JS would read `body[0]` of a list the caller
guarantees non-empty. -/
def d0 : Cell := { x := 0, y := 0 }

/-- `sameCell(a, b)` for two present cells. -/
def sameCell (a b : Cell) : Bool := a.x == b.x && a.y == b.y

/-- `manhattan(a, b)`. -/
def manhattan (a b : Cell) : Nat := (a.x - b.x).natAbs + (a.y - b.y).natAbs

/-- `this.grid` (= 28). -/
def grid : Int := 28

/-- `this.startCell` (= the board center `(14, 14)`). -/
def startCell : Cell := { x := 14, y := 14 }

/-- `this.valueThreshold` (= 32), the fixed brightness floor. -/
def valueThreshold : ℚ := 32

/-- `isInside(pos)`. -/
def isInside (pos : Cell) : Bool :=
  pos.x ≥ 0 && pos.y ≥ 0 && pos.x < grid && pos.y < grid

/-- The mode string `'food'`. -/
def foodMode : String := "food"

/-- The mode string `'tail'`. -/
def tailMode : String := "tail"

/-! ## PathPlanner: `findPath` -/

/-- A planner search state `{head, body, parent, move}`; the JS root parent
`-1` is `none`. -/
structure SState where
  head : Cell
  body : List Cell
  parent : Option Nat
  move : Option Dir
deriving DecidableEq

/-- Default search state for out-of-range list reads (never hit on the paths
the code takes). -/
def dfltS : SState := { head := d0, body := [], parent := none, move := none }

/-- The entry of the search states array at index `i` (the stored states are
only ever read in bounds). -/
def getS (states : List SState) (i : Nat) : SState := states.getD i dfltS

/-- `maxNodes` (= 20000), the search node cap. -/
def maxNodes : Nat := 20000

/-- One candidate direction of the expansion loop body of `findPath`:
off-grid and colliding candidates are skipped, the new body is keyed into
`visited`, and the state is stored only below the node cap. -/
def expandDir (target : Cell) (mode : String) (cursor : Nat) (st : SState)
    (sv : List SState × List (List Cell)) (dir : Dir) :
    List SState × List (List Cell) :=
  let states := sv.1
  let visited := sv.2
  let newHead : Cell := { x := st.head.x + dir.dx, y := st.head.y + dir.dy }
  if !isInside newHead then sv
  else
    let grows := mode == foodMode && sameCell newHead target
    let collisionBody := if grows then st.body else st.body.dropLast
    if collisionBody.any (fun s => s.x == newHead.x && s.y == newHead.y) then sv
    else
      let newBody := if grows then newHead :: st.body else (newHead :: st.body).dropLast
      if visited.contains newBody then sv
      else
        let visited' := newBody :: visited
        let states' :=
          if states.length < maxNodes then
            states ++ [{ head := newHead, body := newBody, parent := some cursor,
                         move := some dir }]
          else states
        (states', visited')

/-- The `for (const dir of DIRS)` expansion of one dequeued state. -/
def expandState (target : Cell) (mode : String) (cursor : Nat) (st : SState)
    (sv : List SState × List (List Cell)) : List SState × List (List Cell) :=
  DIRS.foldl (expandDir target mode cursor st) sv

/-- `reconstructPath(states, index)`: collect the `move` of each state while
following `parent` links, root to goal order.  The fuel is instantiated with
`states.length`, which bounds the strictly decreasing parent chain. -/
def reconstructPath (states : List SState) : Nat → Nat → List Dir
  | 0, _ => []
  | fuel + 1, idx =>
    let st := getS states idx
    let rest :=
      match st.parent with
      | some p => reconstructPath states fuel p
      | none => []
    match st.move with
    | some m => rest ++ [m]
    | none => rest

/-- The `while (cursor < states.length && cursor < maxNodes)` search loop of
`findPath`.  Each iteration advances `cursor` by one, so `maxNodes` fuel is
exactly enough: fuel exhaustion coincides with `cursor = maxNodes`, where the
loop guard fails and the JS returns `null`. -/
def findPathLoop (target : Cell) (mode : String) :
    Nat → List SState → List (List Cell) → Nat → Option (List Dir)
  | 0, _, _, _ => none
  | fuel + 1, states, visited, cursor =>
    if cursor < states.length ∧ cursor < maxNodes then
      let st := getS states cursor
      if sameCell st.head target && (mode == foodMode || st.parent.isSome) then
        some (reconstructPath states states.length cursor)
      else
        let sv := expandState target mode cursor st (states, visited)
        findPathLoop target mode fuel sv.1 sv.2 (cursor + 1)
    else none

/-- The search root: head `body[0]`, no parent, no move. -/
def initState (body : List Cell) : SState :=
  { head := body.headD d0, body := body, parent := none, move := none }

/-- `findPath(body, target, mode)` (the target is always a present cell at the
call sites modelled here). -/
def findPath (body : List Cell) (target : Cell) (mode : String) :
    Option (List Dir) :=
  findPathLoop target mode maxNodes [initState body] [body] 0

/-- The search loop again, also returning the states array at exit; used to
state the node-cap bound on stored states. -/
def findPathLoopFull (target : Cell) (mode : String) :
    Nat → List SState → List (List Cell) → Nat → Option (List Dir) × List SState
  | 0, states, _, _ => (none, states)
  | fuel + 1, states, visited, cursor =>
    if cursor < states.length ∧ cursor < maxNodes then
      let st := getS states cursor
      if sameCell st.head target && (mode == foodMode || st.parent.isSome) then
        (some (reconstructPath states states.length cursor), states)
      else
        let sv := expandState target mode cursor st (states, visited)
        findPathLoopFull target mode fuel sv.1 sv.2 (cursor + 1)
    else (none, states)

/-- `findPath` instrumented with its final states array. -/
def findPathFull (body : List Cell) (target : Cell) (mode : String) :
    Option (List Dir) × List SState :=
  findPathLoopFull target mode maxNodes [initState body] [body] 0

/-! ## The move semantics the search simulates -/

/-- The candidate head obtained by applying `dir` to the head of `body`. -/
def nextHead (body : List Cell) (dir : Dir) : Cell :=
  { x := (body.headD d0).x + dir.dx, y := (body.headD d0).y + dir.dy }

/-- `grows`: true only in `food` mode when the candidate head equals the
target. -/
def growsAt (mode : String) (target : Cell) (body : List Cell) (dir : Dir) : Bool :=
  mode == foodMode && sameCell (nextHead body dir) target

/-- The collision-check body of one move: the full previous body when growing,
otherwise the previous body with its last segment removed. -/
def collisionBodyOf (mode : String) (target : Cell) (body : List Cell)
    (dir : Dir) : List Cell :=
  if growsAt mode target body dir then body else body.dropLast

/-- One move is safe: the new head stays on the grid and misses every cell of
the collision-check body. -/
def moveSafe (mode : String) (target : Cell) (body : List Cell) (dir : Dir) : Bool :=
  isInside (nextHead body dir) &&
    !((collisionBodyOf mode target body dir).any
        (fun s => s.x == (nextHead body dir).x && s.y == (nextHead body dir).y))

/-- The body after one move: prepend the new head and, if not growing, drop
the last segment. -/
def applyMove (mode : String) (target : Cell) (body : List Cell) (dir : Dir) :
    List Cell :=
  if growsAt mode target body dir then nextHead body dir :: body
  else (nextHead body dir :: body).dropLast

/-- Every move of the sequence, applied in order, is safe. -/
def pathSafe (mode : String) (target : Cell) : List Cell → List Dir → Bool
  | _, [] => true
  | body, d :: ds =>
    moveSafe mode target body d && pathSafe mode target (applyMove mode target body d) ds

/-- The body reached by applying a move sequence in order. -/
def simFrom (mode : String) (target : Cell) : List Cell → List Dir → List Cell
  | body, [] => body
  | body, d :: ds => simFrom mode target (applyMove mode target body d) ds

/-- A valid snake body: non-empty, all cells distinct, consecutive cells at
Manhattan distance 1. -/
def validBody (body : List Cell) : Prop :=
  body ≠ [] ∧ body.Nodup ∧ List.Chain' (fun a b => manhattan a b = 1) body

/-- The invariant of one stored search state: its body is non-empty with the
recorded head in front, and it is either the root (bearing the start body) or
was produced from its earlier parent by the safe recorded move. -/
def GoodEntry (mode : String) (target : Cell) (body₀ : List Cell)
    (states : List SState) (i : Nat) : Prop :=
  (getS states i).body ≠ [] ∧
  (getS states i).head = (getS states i).body.headD d0 ∧
  (((getS states i).parent = none ∧ (getS states i).move = none ∧
      (getS states i).body = body₀) ∨
    (∃ p m, (getS states i).parent = some p ∧ (getS states i).move = some m ∧
      p < i ∧
      moveSafe mode target (getS states p).body m = true ∧
      (getS states i).body = applyMove mode target (getS states p).body m))

/-- Every stored search state satisfies `GoodEntry`. -/
def Good (mode : String) (target : Cell) (body₀ : List Cell)
    (states : List SState) : Prop :=
  ∀ i, i < states.length → GoodEntry mode target body₀ states i

/-- Every stored search state with a parent also records a move (only the
root lacks both). -/
def ParentHasMove (states : List SState) : Prop :=
  ∀ i, i < states.length → (getS states i).parent.isSome = true →
    (getS states i).move.isSome = true

/-! ## SnakeReconstructor: `refineSnakeCluster` -/

/-- A cluster `{cells, set}`; the JS key set (of `coordKey` strings) is
modelled as the list of keyed cells, with membership by cell equality. -/
structure Cluster where
  cells : List Cell
  set : List Cell
deriving DecidableEq

/-- The enrichment step of `refineSnakeCluster`: pair each cluster cell with
its brightness value from the metrics grid. -/
def enrichedCells (cluster : Cluster) (metrics : Cell → ℚ) : List (Cell × ℚ) :=
  cluster.cells.map (fun c => (c, metrics c))

/-- The JS `sort((a, b) => b.value - a.value)`: a stable sort by brightness
descending.  Insertion sort with the non-strict relation places an element
before every equally bright element inserted earlier, which is exactly the
stable order. -/
def sortCellsDesc (l : List (Cell × ℚ)) : List (Cell × ℚ) :=
  l.insertionSort (fun a b => b.2 ≤ a.2)

/-- `maxKeep = Math.max(expectedLen + 6, Math.min(enriched.length,
expectedLen * 2))`. -/
def maxKeepOf (clusterLen expectedLen : Nat) : Nat :=
  max (expectedLen + 6) (min clusterLen (expectedLen * 2))

/-- The kept slice: the first `maxKeep` cells in brightness-descending
order. -/
def keptSlice (cluster : Cluster) (metrics : Cell → ℚ) (expectedLen : Nat) :
    List (Cell × ℚ) :=
  (sortCellsDesc (enrichedCells cluster metrics)).take
    (maxKeepOf cluster.cells.length expectedLen)

/-- The dynamic brightness cutoff: the larger of the fixed floor and the value
at index `min(expectedLen - 1, slice.length - 1)` of the kept slice
(meaningful for `expectedLen ≥ 1`, as supplied by `analyzeBoard`). -/
def dynThreshold (cluster : Cluster) (metrics : Cell → ℚ) (expectedLen : Nat) : ℚ :=
  let slice := keptSlice cluster metrics expectedLen
  let cutoffIndex := min (expectedLen - 1) (slice.length - 1)
  max valueThreshold ((slice.get? cutoffIndex).elim valueThreshold (·.2))

/-- The retention filter of `refineSnakeCluster`: a slice entry survives when
its value reaches the dynamic cutoff or its rank is within `expectedLen`. -/
def filteredSlice (cluster : Cluster) (metrics : Cell → ℚ) (expectedLen : Nat) :
    List (Cell × ℚ) :=
  let thr := dynThreshold cluster metrics expectedLen
  ((keptSlice cluster metrics expectedLen).enum.filter
      (fun p => decide (thr ≤ p.2.2) || decide (p.1 < expectedLen))).map Prod.snd

/-- The dedup loop of `refineSnakeCluster`: keep first occurrences of each
coordinate (the JS `seen` key set always holds exactly the keys of the cells
accumulated so far, so it is modelled by membership in the accumulator), and
stop once `maxKeep` cells are kept. -/
def uniqueLoop (maxKeep : Nat) : List (Cell × ℚ) → List Cell → List Cell
  | [], acc => acc
  | c :: rest, acc =>
    if c.1 ∈ acc then uniqueLoop maxKeep rest acc
    else
      let acc' := acc ++ [c.1]
      if maxKeep ≤ acc'.length then acc' else uniqueLoop maxKeep rest acc'

/-- `refineSnakeCluster(cluster, metrics, expectedLen)` for a present cluster
(the `null` input short-circuit lives at the call site). -/
def refineSnakeCluster (cluster : Cluster) (metrics : Cell → ℚ)
    (expectedLen : Nat) : Cluster :=
  if cluster.cells = [] then cluster
  else
    let unique := uniqueLoop (maxKeepOf cluster.cells.length expectedLen)
      (filteredSlice cluster metrics expectedLen) []
    { cells := unique, set := unique }

/-! ## SnakeReconstructor: `reconstructSnake` -/

/-- `getNeighbors(cell, set)`: the in-grid 4-neighbors of `cell` that belong
to the key set, in the source's option order. -/
def getNeighbors (cell : Cell) (set : List Cell) : List Cell :=
  ([{ x := cell.x + 1, y := cell.y }, { x := cell.x - 1, y := cell.y },
    { x := cell.x, y := cell.y + 1 }, { x := cell.x, y := cell.y - 1 }] :
      List Cell).filter
    (fun pos => isInside pos && decide (pos ∈ set))

/-- The first element of a list stably sorted by Manhattan distance to
`reference`: the earliest element at minimal distance. -/
def minByManhattan (reference : Cell) (l : List Cell) : Option Cell :=
  l.foldl
    (fun best c =>
      match best with
      | none => some c
      | some b =>
        if manhattan c reference < manhattan b reference then some c else best)
    none

/-- The head-selection phases of `reconstructSnake`: predicted head if still
in the cluster; else a cluster cell adjacent to (and distinct from) the
previous head; else the unique endpoint; else the endpoint, or failing that
the cluster cell, nearest to the previous head or board center. -/
def chooseHead (cells : List Cell) (set : List Cell)
    (expectedHead prevHead : Option Cell) : Cell :=
  let head0 : Option Cell :=
    match expectedHead with
    | some eh => if eh ∈ set then some eh else none
    | none => none
  let head1 : Option Cell :=
    match head0 with
    | some h => some h
    | none =>
      match prevHead with
      | some ph => cells.find? (fun c => manhattan c ph == 1 && !(sameCell c ph))
      | none => none
  match head1 with
  | some h => h
  | none =>
    let endpoints := cells.filter (fun c => decide ((getNeighbors c set).length ≤ 1))
    let reference := prevHead.getD startCell
    if endpoints.length = 1 then endpoints.headD d0
    else if 1 < endpoints.length then (minByManhattan reference endpoints).getD d0
    else (minByManhattan reference cells).getD d0

/-- The `prev && sameCell(candidate, prev)` skip condition of the walk loop. -/
def prevBlocks (prev : Option Cell) (cand : Cell) : Bool :=
  match prev with
  | some p => sameCell cand p
  | none => false

/-- The greedy walk loop of `reconstructSnake`: append the current cell, then
step to the first unvisited in-cluster neighbor that is not the immediately
preceding cell; fail when the loop guard `body.length > set.size + 2` fires.
The walk visits each cluster cell at most once, so `set.length + 4` fuel can
only run out after the guard has already failed the walk. -/
def walkLoop (set : List Cell) :
    Nat → List Cell → List Cell → Option Cell → Cell → Option (List Cell)
  | 0, _, _, _, _ => none
  | fuel + 1, body, visited, prev, current =>
    let body' := body ++ [current]
    let visited' := current :: visited
    let next := (getNeighbors current set).find?
      (fun cand => !(prevBlocks prev cand) && !(visited'.contains cand))
    match next with
    | none => some body'
    | some nx =>
      if set.length + 2 < body'.length then none
      else walkLoop set fuel body' visited' (some current) nx

/-- Head selection plus greedy walk of `reconstructSnake`, up to (not
including) the length reconciliation. -/
def walkBody (cluster : Cluster) (expectedHead prevHead : Option Cell) :
    Option (List Cell) :=
  if cluster.cells = [] then none
  else
    let head := chooseHead cluster.cells cluster.set expectedHead prevHead
    walkLoop cluster.set (cluster.set.length + 4) [] [] none head

/-- A reconstructed snake `{head, tail, body}`. -/
structure Snake where
  head : Cell
  tail : Cell
  body : List Cell
deriving DecidableEq

/-- The length reconciliation of `reconstructSnake`: truncate to
`expectedLen` when longer; when shorter, append the reversed tail slice
`prevSnake.slice(-missing)` of the previous tick's body; fail when still
short. -/
def finishBody (expectedLen : Nat) (prevSnake : List Cell) (walkHead : Cell)
    (body0 : List Cell) : Option Snake :=
  let body1 := if expectedLen < body0.length then body0.take expectedLen else body0
  let body2 :=
    if body1.length < expectedLen ∧ prevSnake ≠ [] then
      body1 ++ (prevSnake.drop (prevSnake.length - (expectedLen - body1.length))).reverse
    else body1
  if body2.length < expectedLen then none
  else some { head := body2.headD walkHead, tail := body2.getLastD walkHead,
              body := body2 }

/-- `reconstructSnake(cluster, metrics, expectedLen)`.  The `metrics` argument
of the source is never read and is omitted; the fields `this.expectedHead`,
`this.prevHead` and `this.prevSnake` it reads are passed explicitly (a `null`
or empty `prevSnake` behaves identically here, so it is passed as a list). -/
def reconstructSnake (cluster : Cluster) (expectedLen : Nat)
    (expectedHead prevHead : Option Cell) (prevSnake : List Cell) :
    Option Snake :=
  match walkBody cluster expectedHead prevHead with
  | none => none
  | some body0 => finishBody expectedLen prevSnake (body0.headD d0) body0

/-! ## ControlLoop: safety fallback, planning policy, dispatch -/

/-- A perception observation `{head, tail, body, food}`. -/
structure Obs where
  head : Cell
  tail : Cell
  body : List Cell
  food : Option Cell
deriving DecidableEq

/-- The cross-tick mutable fields of the bot read or written by the modelled
part of `update()`. -/
structure BotState where
  prevHead : Option Cell
  expectedHead : Option Cell
  commandPending : Bool
  plan : List Dir
  currentDir : Cell
  lastBodyLength : Nat
  prevSnakeKeys : List Cell
deriving DecidableEq

/-- The order-preserving dedup (by `(dx, dy)` key) used to build the probe
order of `chooseSafeDirection`. -/
def addUniqueDirs (sv : List (Int × Int) × List Dir) (ds : List Dir) :
    List (Int × Int) × List Dir :=
  ds.foldl
    (fun sv dir =>
      if (dir.dx, dir.dy) ∈ sv.1 then sv
      else ((dir.dx, dir.dy) :: sv.1, sv.2 ++ [dir]))
    sv

/-- `chooseSafeDirection(state, preferred)`: probe the preferred directions
then `DIRS`, skipping a 180° reversal whenever the last observed body length
exceeds 1, off-grid heads, and heads colliding with the body minus its
vacating tail cell; return the first survivor. -/
def chooseSafeDirection (state : Obs) (preferred : List Dir)
    (lastBodyLength : Nat) (currentDir : Cell) : Option Dir :=
  let order := (addUniqueDirs (addUniqueDirs ([], []) preferred) DIRS).2
  order.find?
    (fun dir =>
      !(decide (1 < lastBodyLength) && dir.dx == -currentDir.x &&
          dir.dy == -currentDir.y) &&
      isInside { x := state.head.x + dir.dx, y := state.head.y + dir.dy } &&
      !(state.body.dropLast.any
          (fun seg => seg.x == state.head.x + dir.dx && seg.y == state.head.y + dir.dy)))

/-- `perpendicularDirs()`. -/
def perpendicularDirs (currentDir : Cell) : List Dir :=
  if currentDir.x ≠ 0 then DIRS.filter (fun dir => dir.dx == 0)
  else if currentDir.y ≠ 0 then DIRS.filter (fun dir => dir.dy == 0)
  else DIRS

/-- `shouldAvoidWall(state)`. -/
def shouldAvoidWall (currentDir : Cell) (state : Obs) : Bool :=
  !isInside { x := state.head.x + currentDir.x, y := state.head.y + currentDir.y }

/-- `updateCurrentDir(state)` as a function of the fields it reads. -/
def updateCurrentDirF (currentDir : Cell) (expectedHead : Option Cell)
    (state : Obs) : Cell :=
  match state.body with
  | [] => currentDir
  | h :: n :: _ => { x := h.x - n.x, y := h.y - n.y }
  | [h] =>
    match expectedHead with
    | some eh => { x := eh.x - h.x, y := eh.y - h.y }
    | none => currentDir

/-- The guard of `sendDirection(dir)`: `false` exactly when the command is a
180° reversal while the last observed body length exceeds 1 (in which case no
keyboard event is dispatched). -/
def sendDirectionOk (lastBodyLength : Nat) (currentDir : Cell) (dir : Dir) : Bool :=
  !(decide (1 < lastBodyLength) && dir.dx == -currentDir.x && dir.dy == -currentDir.y)

/-- `planPath(state)`: food search, then tail-chase fallback, then the
single-step safety heuristic. -/
def planPath (lastBodyLength : Nat) (currentDir : Cell) (state : Obs) :
    List Dir :=
  let pathToFood :=
    match state.food with
    | some f => (findPath state.body f foodMode).getD []
    | none => []
  if pathToFood ≠ [] then pathToFood
  else
    let fallback := (findPath state.body (state.body.getLastD d0) tailMode).getD []
    if fallback ≠ [] then fallback
    else
      match chooseSafeDirection state [] lastBodyLength currentDir with
      | some safe => [safe]
      | none => []

/-- The non-matching arm of the head reconciliation: reset and drop the plan
unless the head simply has not moved yet. -/
def reconcileMiss (b : BotState) (head : Cell) : BotState :=
  match b.prevHead with
  | none =>
    { b with prevHead := some head, commandPending := false, plan := [],
             expectedHead := none }
  | some ph =>
    if sameCell head ph then b
    else
      { b with prevHead := some head, commandPending := false, plan := [],
               expectedHead := none }

/-- The head reconciliation step of `update()` (the two-branch conditional
comparing the observed head against the predicted and previous heads). -/
def reconcileHead (b : BotState) (head : Cell) : BotState :=
  match b.expectedHead with
  | some eh =>
    if sameCell head eh then
      { b with commandPending := false, prevHead := some head,
               expectedHead := none }
    else reconcileMiss b head
  | none => reconcileMiss b head

/-- The dispatch step of `update()`: when a plan is queued and no command is
pending, pop the next move; a successful `sendDirection` marks the command
pending and predicts the next head, a refused one changes nothing else.  The
returned direction is the dispatched keyboard event, if any. -/
def dispatchStep (b : BotState) (head : Cell) : BotState × Option Dir :=
  if b.plan = [] then (b, none)
  else if b.commandPending then (b, none)
  else
    match b.plan with
    | [] => (b, none)
    | nextDir :: rest =>
      let b' := { b with plan := rest }
      if sendDirectionOk b'.lastBodyLength b'.currentDir nextDir then
        ({ b' with commandPending := true,
                   expectedHead := some { x := head.x + nextDir.dx,
                                          y := head.y + nextDir.dy } },
         some nextDir)
      else (b', none)

/-- The tail of `update()` once an observation `state` is in hand (source
lines from the `lastBodyLength` write to the dispatch): record the body
length, refresh the heading, queue an emergency perpendicular turn when
heading off-grid with no plan, reconcile the observed head, refresh the known
key set, refill an empty plan, and run the dispatch step. -/
def updateOnState (b0 : BotState) (state : Obs) : BotState × Option Dir :=
  let b1 := { b0 with lastBodyLength := state.body.length }
  let b2 := { b1 with currentDir := updateCurrentDirF b1.currentDir b1.expectedHead state }
  let b3 :=
    if b2.plan = [] ∧ shouldAvoidWall b2.currentDir state then
      match chooseSafeDirection state (perpendicularDirs b2.currentDir)
          b2.lastBodyLength b2.currentDir with
      | some d => { b2 with plan := [d], commandPending := false }
      | none => b2
    else b2
  let b4 := reconcileHead b3 state.head
  let b5 := { b4 with prevSnakeKeys := state.body }
  let b6 :=
    if b5.plan = [] then
      { b5 with plan := planPath b5.lastBodyLength b5.currentDir state }
    else b5
  dispatchStep b6 state.head

/-! ## Concrete fixtures used by witnesses and counterexamples -/

/-- A bot state about to dispatch a 180° reversal from its plan. -/
def botRev : BotState :=
  { prevHead := some { x := 5, y := 5 }, expectedHead := none,
    commandPending := false, plan := [dirLeft, dirUp],
    currentDir := { x := 1, y := 0 }, lastBodyLength := 2, prevSnakeKeys := [] }

/-- A bot state whose predicted head will not match the observed head. -/
def botDesync : BotState :=
  { prevHead := some { x := 5, y := 5 }, expectedHead := some { x := 6, y := 5 },
    commandPending := true, plan := [dirUp],
    currentDir := { x := 1, y := 0 }, lastBodyLength := 2, prevSnakeKeys := [] }

/-- The observation seen by `botDesync`: the head still sits on the previous
head, not on the predicted one. -/
def obsDesync : Obs :=
  { head := { x := 5, y := 5 }, tail := { x := 4, y := 5 },
    body := [{ x := 5, y := 5 }, { x := 4, y := 5 }], food := none }

/-- A three-cell cluster with one bright and two dimmer cells, used to
witness the refinement characterization. -/
def cluRef : Cluster :=
  { cells := [{ x := 0, y := 0 }, { x := 1, y := 0 }, { x := 2, y := 0 }],
    set := [{ x := 0, y := 0 }, { x := 1, y := 0 }, { x := 2, y := 0 }] }

/-- Brightness metrics for `cluRef`: 50 at `x = 0`, 40 elsewhere. -/
def metRef : Cell → ℚ := fun c => if c.x == 0 then 50 else 40

/-- A bot state desynchronized from both the predicted and previous head. -/
def botDesyncW : BotState :=
  { prevHead := some { x := 2, y := 3 }, expectedHead := some { x := 3, y := 3 },
    commandPending := true, plan := [dirDown],
    currentDir := { x := 1, y := 0 }, lastBodyLength := 2, prevSnakeKeys := [] }

/-! ## Theorems -/

lemma sameCell_iff {a b : Cell} : sameCell a b = true ↔ a = b := by
  cases a; cases b; simp [sameCell]

lemma sameCell_self (a : Cell) : sameCell a a = true := sameCell_iff.mpr rfl

/-- Claim C8: with a remembered body length above 1, the safety fallback never
returns the 180° reversal of the current direction. -/
theorem chooseSafeDirection_no_reversal
    (state : Obs) (preferred : List Dir) (lastBodyLength : Nat)
    (currentDir : Cell) (d : Dir)
    (hlen : 1 < lastBodyLength)
    (h : chooseSafeDirection state preferred lastBodyLength currentDir = some d) :
    ¬(d.dx = -currentDir.x ∧ d.dy = -currentDir.y) := by
  rintro ⟨h1, h2⟩
  simp only [chooseSafeDirection] at h
  have hp := List.find?_some h
  simp [h1, h2, hlen] at hp

/-- Witness for C8: on a two-cell eastbound snake the fallback picks `up`,
which is not the reversal `left`. -/
theorem chooseSafeDirection_no_reversal_witness :
    ¬(dirUp.dx = -(({ x := 1, y := 0 } : Cell)).x ∧
      dirUp.dy = -(({ x := 1, y := 0 } : Cell)).y) :=
  chooseSafeDirection_no_reversal
    { head := { x := 5, y := 5 }, tail := { x := 4, y := 5 },
      body := [{ x := 5, y := 5 }, { x := 4, y := 5 }], food := none }
    [] 2 { x := 1, y := 0 } dirUp (by decide) (by decide)

/-- Claim C10: when the dequeued planned move is the exact reversal of the
current direction while the remembered body length exceeds 1, `sendDirection`
refuses it, no event is emitted, and the dispatch step changes nothing except
removing that move from the front of the plan. -/
theorem dispatch_reversal_dropped (b : BotState) (head : Cell) (d : Dir)
    (rest : List Dir)
    (hplan : b.plan = d :: rest) (hpend : b.commandPending = false)
    (hlen : 1 < b.lastBodyLength)
    (hdx : d.dx = -b.currentDir.x) (hdy : d.dy = -b.currentDir.y) :
    sendDirectionOk b.lastBodyLength b.currentDir d = false ∧
    dispatchStep b head = ({ b with plan := rest }, none) := by
  have hok : sendDirectionOk b.lastBodyLength b.currentDir d = false := by
    simp [sendDirectionOk, hdx, hdy, hlen]
  refine ⟨hok, ?_⟩
  simp [dispatchStep, hplan, hpend, hok]

/-- Witness for C10: a westbound reversal at the front of `botRev`'s plan is
silently dropped. -/
theorem dispatch_reversal_dropped_witness :
    sendDirectionOk botRev.lastBodyLength botRev.currentDir dirLeft = false ∧
    dispatchStep botRev { x := 5, y := 5 } = ({ botRev with plan := [dirUp] }, none) :=
  dispatch_reversal_dropped botRev { x := 5, y := 5 } dirLeft [dirUp]
    rfl rfl (by decide) (by decide) (by decide)

/-- Counterexample to C9 as stated: the observed head differs from the
predicted head, yet — because it equals the previous head — the pending flag
and the queued plan survive the whole update. -/
theorem desync_clears_plan_cex :
    obsDesync.head ≠ { x := 6, y := 5 } ∧
    botDesync.expectedHead = some { x := 6, y := 5 } ∧
    botDesync.commandPending = true ∧
    (updateOnState botDesync obsDesync).1.plan = [dirUp] ∧
    (updateOnState botDesync obsDesync).1.commandPending = true := by
  refine ⟨by decide, rfl, rfl, ?_, ?_⟩ <;> decide

/-- Claim C9 (amended): whenever the observed head matches neither the
predicted head nor the recorded previous head, the reconciliation step of
`update()` (which runs before the dispatch step) clears the pending-command
flag, empties the queued plan, and unsets the prediction. -/
theorem desync_clears_plan (b : BotState) (head eh : Cell)
    (h1 : b.expectedHead = some eh) (h2 : head ≠ eh)
    (h3 : b.prevHead ≠ some head) :
    (reconcileHead b head).commandPending = false ∧
    (reconcileHead b head).plan = [] ∧
    (reconcileHead b head).expectedHead = none := by
  have hsc : sameCell head eh = false := by
    rw [Bool.eq_false_iff]
    intro hc
    exact h2 (sameCell_iff.mp hc)
  unfold reconcileHead
  rw [h1]
  simp only [hsc, Bool.false_eq_true, if_false]
  unfold reconcileMiss
  cases hph : b.prevHead with
  | none => simp
  | some ph =>
    have hne : sameCell head ph = false := by
      rw [Bool.eq_false_iff]
      intro hc
      exact h3 (by rw [hph, sameCell_iff.mp hc])
    simp [hne]

/-- Witness for C9 (amended): `botDesyncW` observes head `(9,9)` matching
neither predicted `(3,3)` nor previous `(2,3)`; everything is cleared. -/
theorem desync_clears_plan_witness :
    (reconcileHead botDesyncW { x := 9, y := 9 }).commandPending = false ∧
    (reconcileHead botDesyncW { x := 9, y := 9 }).plan = [] ∧
    (reconcileHead botDesyncW { x := 9, y := 9 }).expectedHead = none :=
  desync_clears_plan botDesyncW { x := 9, y := 9 } { x := 3, y := 3 }
    rfl (by decide) (by decide)

lemma finishBody_length (expectedLen : Nat) (prevSnake : List Cell)
    (walkHead : Cell) (body0 : List Cell) (sn : Snake)
    (h : finishBody expectedLen prevSnake walkHead body0 = some sn) :
    sn.body.length = expectedLen := by
  simp only [finishBody] at h
  by_cases hlt : expectedLen < body0.length
  · rw [if_pos hlt] at h
    have hlen1 : (body0.take expectedLen).length = expectedLen := by
      simp [List.length_take]
      omega
    rw [if_neg (by simp [hlen1])] at h
    rw [if_neg (by rw [hlen1]; omega)] at h
    cases h
    exact hlen1
  · rw [if_neg hlt] at h
    by_cases hpad : body0.length < expectedLen ∧ prevSnake ≠ []
    · rw [if_pos hpad] at h
      have hlen2 : (body0 ++
          (prevSnake.drop
            (prevSnake.length - (expectedLen - body0.length))).reverse).length ≤
          expectedLen := by
        simp [List.length_append, List.length_reverse, List.length_drop]
        omega
      by_cases hfin : (body0 ++
          (prevSnake.drop
            (prevSnake.length - (expectedLen - body0.length))).reverse).length <
          expectedLen
      · rw [if_pos hfin] at h
        cases h
      · rw [if_neg hfin] at h
        cases h
        dsimp only
        omega
    · rw [if_neg hpad] at h
      by_cases hfin : body0.length < expectedLen
      · rw [if_pos hfin] at h
        cases h
      · rw [if_neg hfin] at h
        cases h
        dsimp only
        omega

/-- Claim C2: every successful `reconstructSnake` returns a body of length
exactly `expectedLen` (with `expectedLen = score + 1` as `analyzeBoard`
passes it, every successful reconstruction has `body.length == score + 1`). -/
theorem reconstructSnake_length (cluster : Cluster) (expectedLen : Nat)
    (expectedHead prevHead : Option Cell) (prevSnake : List Cell) (sn : Snake)
    (h : reconstructSnake cluster expectedLen expectedHead prevHead prevSnake =
      some sn) :
    sn.body.length = expectedLen := by
  unfold reconstructSnake at h
  cases hw : walkBody cluster expectedHead prevHead with
  | none => rw [hw] at h; cases h
  | some body0 =>
    rw [hw] at h
    exact finishBody_length _ _ _ _ _ h

/-- Witness for C2: a three-cell cluster reconstructs to a three-cell body. -/
theorem reconstructSnake_length_witness :
    (Snake.mk { x := 14, y := 14 } { x := 12, y := 14 }
      [{ x := 14, y := 14 }, { x := 13, y := 14 }, { x := 12, y := 14 }]).body.length = 3 :=
  reconstructSnake_length
    { cells := [{ x := 14, y := 14 }, { x := 13, y := 14 }, { x := 12, y := 14 }],
      set := [{ x := 14, y := 14 }, { x := 13, y := 14 }, { x := 12, y := 14 }] }
    3 (some { x := 14, y := 14 }) none [] _ (by decide)

/-! ### Path-planner search invariants -/

lemma getS_append_lt (states : List SState) (e : SState) (i : Nat)
    (h : i < states.length) : getS (states ++ [e]) i = getS states i :=
  List.getD_append _ _ _ _ h

lemma getS_append_self (states : List SState) (e : SState) :
    getS (states ++ [e]) states.length = e := by
  unfold getS
  rw [List.getD_append_right _ _ _ _ (le_refl _)]
  simp

lemma dropLast_cons_ne_nil (a : Cell) (l : List Cell) (h : l ≠ []) :
    (a :: l).dropLast = a :: l.dropLast := by
  cases l with
  | nil => exact absurd rfl h
  | cons b t => rfl

lemma foldl_preserve {α β : Type} {f : β → α → β} {P : β → Prop}
    (h : ∀ b a, P b → P (f b a)) :
    ∀ (l : List α) (b : β), P b → P (l.foldl f b)
  | [], _, hb => hb
  | a :: l, b, hb => foldl_preserve h l (f b a) (h b a hb)

lemma nextHead_eval (st : SState) (dir : Dir) (hh : st.head = st.body.headD d0) :
    nextHead st.body dir = { x := st.head.x + dir.dx, y := st.head.y + dir.dy } := by
  unfold nextHead
  rw [← hh]

lemma moveSafe_eval (mode : String) (target : Cell) (st : SState) (dir : Dir)
    (hh : st.head = st.body.headD d0) (nh : Cell)
    (hnh : nh = { x := st.head.x + dir.dx, y := st.head.y + dir.dy }) :
    moveSafe mode target st.body dir =
      (isInside nh &&
        !((if mode == foodMode && sameCell nh target then st.body
            else st.body.dropLast).any
              (fun s => s.x == nh.x && s.y == nh.y))) := by
  subst hnh
  unfold moveSafe collisionBodyOf growsAt
  rw [nextHead_eval st dir hh]

lemma applyMove_eval (mode : String) (target : Cell) (st : SState) (dir : Dir)
    (hh : st.head = st.body.headD d0) (nh : Cell)
    (hnh : nh = { x := st.head.x + dir.dx, y := st.head.y + dir.dy }) :
    applyMove mode target st.body dir =
      (if mode == foodMode && sameCell nh target then nh :: st.body
       else (nh :: st.body).dropLast) := by
  subst hnh
  unfold applyMove growsAt
  rw [nextHead_eval st dir hh]

lemma goodEntry_append (mode : String) (target : Cell) (body₀ : List Cell)
    (states : List SState) (e : SState) (i : Nat)
    (hi : i < states.length) (h : GoodEntry mode target body₀ states i) :
    GoodEntry mode target body₀ (states ++ [e]) i := by
  unfold GoodEntry at h ⊢
  rw [getS_append_lt _ _ _ hi]
  obtain ⟨h1, h2, h3⟩ := h
  refine ⟨h1, h2, ?_⟩
  rcases h3 with h3 | ⟨p, m, hp, hm, hpi, hsafe, hbody⟩
  · exact Or.inl h3
  · exact Or.inr ⟨p, m, hp, hm, hpi,
      by rwa [getS_append_lt _ _ _ (lt_trans hpi hi)],
      by rwa [getS_append_lt _ _ _ (lt_trans hpi hi)]⟩

lemma expandDir_good (mode : String) (target : Cell) (body₀ : List Cell)
    (n0 cursor : Nat) (st : SState) (hc : cursor < n0)
    (sv : List SState × List (List Cell)) (dir : Dir)
    (hG : Good mode target body₀ sv.1) (hn : n0 ≤ sv.1.length)
    (hst : getS sv.1 cursor = st) :
    Good mode target body₀ (expandDir target mode cursor st sv dir).1 ∧
    n0 ≤ (expandDir target mode cursor st sv dir).1.length ∧
    getS (expandDir target mode cursor st sv dir).1 cursor = st := by
  have hcl : cursor < sv.1.length := lt_of_lt_of_le hc hn
  have hcur := hG cursor hcl
  unfold GoodEntry at hcur
  rw [hst] at hcur
  obtain ⟨hne, hh, -⟩ := hcur
  simp only [expandDir]
  cases hin : isInside { x := st.head.x + dir.dx, y := st.head.y + dir.dy } with
  | false => simp only [hin, Bool.not_false, if_true]; exact ⟨hG, hn, hst⟩
  | true =>
    simp only [hin, Bool.not_true, Bool.false_eq_true, if_false]
    cases hcoll : ((if mode == foodMode &&
          sameCell { x := st.head.x + dir.dx, y := st.head.y + dir.dy } target
        then st.body else st.body.dropLast).any
          (fun s => s.x == ({ x := st.head.x + dir.dx, y := st.head.y + dir.dy } : Cell).x &&
            s.y == ({ x := st.head.x + dir.dx, y := st.head.y + dir.dy } : Cell).y)) with
    | true => simp only [hcoll, if_true]; exact ⟨hG, hn, hst⟩
    | false =>
      simp only [hcoll, Bool.false_eq_true, if_false]
      by_cases hvis : sv.2.contains
          (if mode == foodMode &&
              sameCell { x := st.head.x + dir.dx, y := st.head.y + dir.dy } target
            then ({ x := st.head.x + dir.dx, y := st.head.y + dir.dy } : Cell) :: st.body
            else (({ x := st.head.x + dir.dx, y := st.head.y + dir.dy } : Cell) :: st.body).dropLast) = true
      · simp only [hvis, if_true]; exact ⟨hG, hn, hst⟩
      · simp only [eq_false_of_ne_true hvis, Bool.false_eq_true, if_false]
        by_cases hcap : sv.1.length < maxNodes
        · simp only [if_pos hcap]
          refine ⟨?_, ?_, ?_⟩
          · intro i hi
            rw [List.length_append, List.length_singleton] at hi
            rcases Nat.lt_or_ge i sv.1.length with hlt | hge
            · exact goodEntry_append mode target body₀ sv.1 _ i hlt (hG i hlt)
            · have hieq : i = sv.1.length := by omega
              subst hieq
              unfold GoodEntry
              rw [getS_append_self]
              refine ⟨?_, ?_, Or.inr ⟨cursor, dir, rfl, rfl, hcl, ?_, ?_⟩⟩
              · by_cases hg : (mode == foodMode &&
                    sameCell { x := st.head.x + dir.dx, y := st.head.y + dir.dy } target) = true
                · simp only [hg, if_true]
                  exact List.cons_ne_nil _ _
                · simp only [eq_false_of_ne_true hg, Bool.false_eq_true, if_false]
                  rw [dropLast_cons_ne_nil _ _ hne]
                  exact List.cons_ne_nil _ _
              · by_cases hg : (mode == foodMode &&
                    sameCell { x := st.head.x + dir.dx, y := st.head.y + dir.dy } target) = true
                · simp only [hg, if_true]
                  rfl
                · simp only [eq_false_of_ne_true hg, Bool.false_eq_true, if_false]
                  rw [dropLast_cons_ne_nil _ _ hne]
                  rfl
              · rw [getS_append_lt _ _ _ hcl, hst,
                  moveSafe_eval mode target st dir hh _ rfl, hin, hcoll]
                rfl
              · rw [getS_append_lt _ _ _ hcl, hst,
                  applyMove_eval mode target st dir hh _ rfl]
          · rw [List.length_append, List.length_singleton]
            omega
          · rw [getS_append_lt _ _ _ hcl]
            exact hst
        · simp only [if_neg hcap]
          exact ⟨hG, hn, hst⟩

lemma expandState_good (mode : String) (target : Cell) (body₀ : List Cell)
    (states : List SState) (visited : List (List Cell)) (cursor : Nat)
    (hG : Good mode target body₀ states) (hc : cursor < states.length) :
    Good mode target body₀
      (expandState target mode cursor (getS states cursor) (states, visited)).1 := by
  have h := foldl_preserve
    (P := fun sv : List SState × List (List Cell) =>
      Good mode target body₀ sv.1 ∧ states.length ≤ sv.1.length ∧
        getS sv.1 cursor = getS states cursor)
    (fun sv dir hQ =>
      expandDir_good mode target body₀ states.length cursor (getS states cursor)
        hc sv dir hQ.1 hQ.2.1 hQ.2.2)
    DIRS (states, visited) ⟨hG, le_refl _, rfl⟩
  exact h.1

lemma pathSafe_concat (mode : String) (target : Cell) :
    ∀ (ms : List Dir) (body : List Cell) (d : Dir),
      pathSafe mode target body (ms ++ [d]) =
        (pathSafe mode target body ms &&
          moveSafe mode target (simFrom mode target body ms) d)
  | [], body, d => by simp [pathSafe, simFrom]
  | e :: ms, body, d => by
    simp only [List.cons_append, pathSafe, simFrom, List.append_eq]
    rw [pathSafe_concat mode target ms (applyMove mode target body e) d,
      Bool.and_assoc]

lemma simFrom_concat (mode : String) (target : Cell) :
    ∀ (ms : List Dir) (body : List Cell) (d : Dir),
      simFrom mode target body (ms ++ [d]) =
        applyMove mode target (simFrom mode target body ms) d
  | [], _, _ => rfl
  | e :: ms, body, d => by
    simp only [List.cons_append, simFrom]
    exact simFrom_concat mode target ms (applyMove mode target body e) d

lemma reconstructPath_spec (mode : String) (target : Cell) (body₀ : List Cell)
    (states : List SState) (hG : Good mode target body₀ states) :
    ∀ (fuel idx : Nat), idx < states.length → idx < fuel →
      pathSafe mode target body₀ (reconstructPath states fuel idx) = true ∧
      simFrom mode target body₀ (reconstructPath states fuel idx) =
        (getS states idx).body := by
  intro fuel
  induction fuel with
  | zero => intro idx _ h; omega
  | succ fuel ih =>
    intro idx hlen hf
    obtain ⟨hne, hh, hcase⟩ := hG idx hlen
    simp only [reconstructPath]
    rcases hcase with ⟨hp, hm, hb⟩ | ⟨p, m, hp, hm, hpi, hsafe, hb⟩
    · rw [hp, hm]
      exact ⟨rfl, hb.symm⟩
    · rw [hp, hm]
      have hrec := ih p (lt_trans hpi hlen) (by omega)
      constructor
      · rw [pathSafe_concat, hrec.1, hrec.2, hsafe]
        rfl
      · rw [simFrom_concat, hrec.2, ← hb]

lemma findPathLoop_safe (mode : String) (target : Cell) (body₀ : List Cell) :
    ∀ (fuel : Nat) (states : List SState) (visited : List (List Cell))
      (cursor : Nat) (ms : List Dir),
      Good mode target body₀ states →
      findPathLoop target mode fuel states visited cursor = some ms →
      pathSafe mode target body₀ ms = true := by
  intro fuel
  induction fuel with
  | zero => intro _ _ _ _ _ h; exact absurd h (by simp [findPathLoop])
  | succ fuel ih =>
    intro states visited cursor ms hG h
    simp only [findPathLoop] at h
    by_cases hc : cursor < states.length ∧ cursor < maxNodes
    · rw [if_pos hc] at h
      by_cases hgoal : (sameCell (getS states cursor).head target &&
          (mode == foodMode || (getS states cursor).parent.isSome)) = true
      · rw [if_pos hgoal] at h
        cases h
        exact (reconstructPath_spec mode target body₀ states hG
          states.length cursor hc.1 hc.1).1
      · rw [if_neg hgoal] at h
        exact ih _ _ _ _ (expandState_good mode target body₀ states visited
          cursor hG hc.1) h
    · rw [if_neg hc] at h
      cases h

/-- Claim C1: whenever `findPath` returns a move sequence on a valid snake
body, replaying the moves on the simulated snake keeps every new head inside
the 28×28 grid and off every cell of that step's collision-check body (the
full previous body on the growing move in `food` mode, otherwise the previous
body minus its vacating last segment); in particular the first move is safe
against the non-vacating portion of the current body. -/
theorem findPath_safe (body : List Cell) (target : Cell) (mode : String)
    (moves : List Dir) (hv : validBody body)
    (h : findPath body target mode = some moves) :
    pathSafe mode target body moves = true := by
  apply findPathLoop_safe mode target body maxNodes [initState body] [body] 0
    moves ?_ h
  intro i hi
  have hi0 : i = 0 := by
    simp only [List.length_singleton] at hi
    omega
  subst hi0
  unfold GoodEntry getS
  exact ⟨hv.1, rfl, Or.inl ⟨rfl, rfl, rfl⟩⟩

/-- Witness for C1: the two-move food path found for a two-cell snake is safe
when replayed. -/
theorem findPath_safe_witness :
    validBody [{ x := 5, y := 5 }, { x := 4, y := 5 }] ∧
    pathSafe foodMode { x := 7, y := 5 }
      [{ x := 5, y := 5 }, { x := 4, y := 5 }] [dirRight, dirRight] = true :=
  ⟨⟨by simp, by decide,
      by simp only [List.chain'_cons, List.chain'_singleton, and_true]; decide⟩,
    findPath_safe [{ x := 5, y := 5 }, { x := 4, y := 5 }] { x := 7, y := 5 }
      foodMode [dirRight, dirRight]
      ⟨by simp, by decide,
        by simp only [List.chain'_cons, List.chain'_singleton, and_true]; decide⟩
      (by decide)⟩

/-! ### Depth-zero goal policy and the node cap -/

lemma expandDir_shape (target : Cell) (mode : String) (cursor : Nat)
    (st : SState) (sv : List SState × List (List Cell)) (dir : Dir) :
    (expandDir target mode cursor st sv dir).1 = sv.1 ∨
    (sv.1.length < maxNodes ∧ ∃ e : SState, e.parent = some cursor ∧
      e.move = some dir ∧
      (expandDir target mode cursor st sv dir).1 = sv.1 ++ [e]) := by
  simp only [expandDir]
  cases hin : isInside { x := st.head.x + dir.dx, y := st.head.y + dir.dy } with
  | false => simp only [hin, Bool.not_false, if_true]; exact Or.inl (by trivial)
  | true =>
    simp only [hin, Bool.not_true, Bool.false_eq_true, if_false]
    cases hcoll : ((if mode == foodMode &&
          sameCell { x := st.head.x + dir.dx, y := st.head.y + dir.dy } target
        then st.body else st.body.dropLast).any
          (fun s => s.x == ({ x := st.head.x + dir.dx, y := st.head.y + dir.dy } : Cell).x &&
            s.y == ({ x := st.head.x + dir.dx, y := st.head.y + dir.dy } : Cell).y)) with
    | true => simp only [hcoll, if_true]; exact Or.inl (by trivial)
    | false =>
      simp only [hcoll, Bool.false_eq_true, if_false]
      by_cases hvis : sv.2.contains
          (if mode == foodMode &&
              sameCell { x := st.head.x + dir.dx, y := st.head.y + dir.dy } target
            then ({ x := st.head.x + dir.dx, y := st.head.y + dir.dy } : Cell) :: st.body
            else (({ x := st.head.x + dir.dx, y := st.head.y + dir.dy } : Cell) :: st.body).dropLast) = true
      · simp only [hvis, if_true]; exact Or.inl (by trivial)
      · simp only [eq_false_of_ne_true hvis, Bool.false_eq_true, if_false]
        by_cases hcap : sv.1.length < maxNodes
        · simp only [if_pos hcap]
          exact Or.inr ⟨hcap, _, rfl, rfl, rfl⟩
        · simp only [if_neg hcap]
          exact Or.inl (by trivial)

lemma phm_expandDir (target : Cell) (mode : String) (cursor : Nat) (st : SState)
    (sv : List SState × List (List Cell)) (dir : Dir)
    (hP : ParentHasMove sv.1) :
    ParentHasMove (expandDir target mode cursor st sv dir).1 := by
  rcases expandDir_shape target mode cursor st sv dir with h | ⟨-, e, -, hm, h⟩
  · rw [h]; exact hP
  · rw [h]
    intro i hi
    rw [List.length_append, List.length_singleton] at hi
    rcases Nat.lt_or_ge i sv.1.length with hlt | hge
    · rw [getS_append_lt _ _ _ hlt]
      exact hP i hlt
    · have hieq : i = sv.1.length := by omega
      subst hieq
      rw [getS_append_self]
      intro _
      rw [hm]
      rfl

lemma phm_expandState (target : Cell) (mode : String) (cursor : Nat)
    (st : SState) (states : List SState) (visited : List (List Cell))
    (hP : ParentHasMove states) :
    ParentHasMove (expandState target mode cursor st (states, visited)).1 :=
  foldl_preserve (P := fun sv : List SState × List (List Cell) => ParentHasMove sv.1)
    (fun sv dir h => phm_expandDir target mode cursor st sv dir h)
    DIRS (states, visited) hP

lemma reconstructPath_ne_nil (states : List SState) (fuel idx : Nat)
    (hf : 0 < fuel) (hm : (getS states idx).move.isSome = true) :
    reconstructPath states fuel idx ≠ [] := by
  cases fuel with
  | zero => omega
  | succ fuel =>
    obtain ⟨m, hmv⟩ := Option.isSome_iff_exists.mp hm
    simp [reconstructPath, hmv]

lemma findPathLoop_tail_nonempty (target : Cell) (mode : String)
    (hmode : (mode == foodMode) = false) :
    ∀ (fuel : Nat) (states : List SState) (visited : List (List Cell))
      (cursor : Nat) (ms : List Dir),
      ParentHasMove states →
      findPathLoop target mode fuel states visited cursor = some ms →
      ms ≠ [] := by
  intro fuel
  induction fuel with
  | zero => intro _ _ _ _ _ h; exact absurd h (by simp [findPathLoop])
  | succ fuel ih =>
    intro states visited cursor ms hP h
    simp only [findPathLoop] at h
    by_cases hc : cursor < states.length ∧ cursor < maxNodes
    · rw [if_pos hc] at h
      by_cases hgoal : (sameCell (getS states cursor).head target &&
          (mode == foodMode || (getS states cursor).parent.isSome)) = true
      · rw [if_pos hgoal] at h
        cases h
        rw [Bool.and_eq_true, hmode, Bool.false_or] at hgoal
        exact reconstructPath_ne_nil states states.length cursor (by omega)
          (hP cursor hc.1 hgoal.2)
      · rw [if_neg hgoal] at h
        exact ih _ _ _ _ (phm_expandState target mode cursor _ states visited hP) h
    · rw [if_neg hc] at h
      cases h

lemma findPathLoop_succ (target : Cell) (mode : String) (fuel : Nat)
    (states : List SState) (visited : List (List Cell)) (cursor : Nat) :
    findPathLoop target mode (fuel + 1) states visited cursor =
      if cursor < states.length ∧ cursor < maxNodes then
        if sameCell (getS states cursor).head target &&
            (mode == foodMode || (getS states cursor).parent.isSome) then
          some (reconstructPath states states.length cursor)
        else
          findPathLoop target mode fuel
            (expandState target mode cursor (getS states cursor) (states, visited)).1
            (expandState target mode cursor (getS states cursor) (states, visited)).2
            (cursor + 1)
      else none := rfl

/-- Claim C4: in `tail` mode `findPath` never returns the empty move sequence
(a depth-0 state standing on the target is not accepted as a goal), while in
`food` mode a head already on the target at depth 0 is accepted and the empty
move sequence is returned. -/
theorem findPath_depth_zero_policy :
    (∀ (body : List Cell) (target : Cell) (ms : List Dir),
        findPath body target tailMode = some ms → ms ≠ []) ∧
    (∀ (body : List Cell) (target : Cell),
        body ≠ [] → body.headD d0 = target →
        findPath body target foodMode = some []) := by
  constructor
  · intro body target ms h
    refine findPathLoop_tail_nonempty target tailMode (by decide) maxNodes
      [initState body] [body] 0 ms ?_ h
    intro i hi
    have hi0 : i = 0 := by
      simp only [List.length_singleton] at hi
      omega
    subst hi0
    intro habs
    simp [getS, initState] at habs
  · intro body target hne hh
    unfold findPath
    rw [show maxNodes = 19999 + 1 from rfl, findPathLoop_succ]
    have hcond : (0 : Nat) < [initState body].length ∧ (0 : Nat) < maxNodes := by
      constructor
      · simp
      · norm_num [maxNodes]
    rw [if_pos hcond]
    have hcond2 : (sameCell (getS [initState body] 0).head target &&
        (foodMode == foodMode || (getS [initState body] 0).parent.isSome)) = true := by
      have h1 : (getS [initState body] 0).head = target := hh
      rw [h1, sameCell_self]
      rfl
    rw [if_pos hcond2]
    simp [reconstructPath, getS, initState]

/-- Witness for C4: a two-cell snake finds the single-move tail path `[down]`
(non-empty), and a snake already on the food returns `[]` in food mode. -/
theorem findPath_depth_zero_policy_witness :
    ([dirDown] : List Dir) ≠ [] ∧
    findPath [{ x := 3, y := 3 }] { x := 3, y := 3 } foodMode = some [] :=
  ⟨findPath_depth_zero_policy.1 [{ x := 5, y := 5 }, { x := 5, y := 6 }]
      { x := 5, y := 6 } [dirDown] (by decide),
    findPath_depth_zero_policy.2 [{ x := 3, y := 3 }] { x := 3, y := 3 }
      (by decide) (by decide)⟩

lemma findPathLoop_fuel_congr (target : Cell) (mode : String) :
    ∀ (f1 f2 : Nat) (states : List SState) (visited : List (List Cell))
      (cursor : Nat),
      maxNodes ≤ cursor + f1 → maxNodes ≤ cursor + f2 →
      findPathLoop target mode f1 states visited cursor =
        findPathLoop target mode f2 states visited cursor := by
  intro f1
  induction f1 with
  | zero =>
    intro f2 states visited cursor h1 h2
    cases f2 with
    | zero => rfl
    | succ f2 =>
      simp only [findPathLoop]
      rw [if_neg (by omega)]
  | succ f1 ih =>
    intro f2 states visited cursor h1 h2
    cases f2 with
    | zero =>
      simp only [findPathLoop]
      rw [if_neg (by omega)]
    | succ f2 =>
      simp only [findPathLoop]
      by_cases hc : cursor < states.length ∧ cursor < maxNodes
      · rw [if_pos hc, if_pos hc]
        by_cases hgoal : (sameCell (getS states cursor).head target &&
            (mode == foodMode || (getS states cursor).parent.isSome)) = true
        · rw [if_pos hgoal, if_pos hgoal]
        · rw [if_neg hgoal, if_neg hgoal]
          exact ih f2 _ _ _ (by omega) (by omega)
      · rw [if_neg hc, if_neg hc]

lemma expandDir_cap (target : Cell) (mode : String) (cursor : Nat) (st : SState)
    (sv : List SState × List (List Cell)) (dir : Dir)
    (h : sv.1.length ≤ maxNodes) :
    (expandDir target mode cursor st sv dir).1.length ≤ maxNodes := by
  rcases expandDir_shape target mode cursor st sv dir with he | ⟨hlt, e, -, -, he⟩
  · rw [he]; exact h
  · rw [he, List.length_append, List.length_singleton]
    omega

lemma expandState_cap (target : Cell) (mode : String) (cursor : Nat)
    (st : SState) (states : List SState) (visited : List (List Cell))
    (h : states.length ≤ maxNodes) :
    (expandState target mode cursor st (states, visited)).1.length ≤ maxNodes :=
  foldl_preserve (P := fun sv : List SState × List (List Cell) =>
      sv.1.length ≤ maxNodes)
    (fun sv dir hh => expandDir_cap target mode cursor st sv dir hh)
    DIRS (states, visited) h

lemma findPathLoopFull_fst (target : Cell) (mode : String) :
    ∀ (fuel : Nat) (states : List SState) (visited : List (List Cell))
      (cursor : Nat),
      (findPathLoopFull target mode fuel states visited cursor).1 =
        findPathLoop target mode fuel states visited cursor := by
  intro fuel
  induction fuel with
  | zero => intro states visited cursor; rfl
  | succ fuel ih =>
    intro states visited cursor
    simp only [findPathLoopFull, findPathLoop]
    by_cases hc : cursor < states.length ∧ cursor < maxNodes
    · rw [if_pos hc, if_pos hc]
      by_cases hgoal : (sameCell (getS states cursor).head target &&
          (mode == foodMode || (getS states cursor).parent.isSome)) = true
      · rw [if_pos hgoal, if_pos hgoal]
      · rw [if_neg hgoal, if_neg hgoal]
        exact ih _ _ _
    · rw [if_neg hc, if_neg hc]

lemma findPathLoopFull_cap (target : Cell) (mode : String) :
    ∀ (fuel : Nat) (states : List SState) (visited : List (List Cell))
      (cursor : Nat),
      states.length ≤ maxNodes →
      (findPathLoopFull target mode fuel states visited cursor).2.length ≤
        maxNodes := by
  intro fuel
  induction fuel with
  | zero => intro states visited cursor h; exact h
  | succ fuel ih =>
    intro states visited cursor h
    simp only [findPathLoopFull]
    by_cases hc : cursor < states.length ∧ cursor < maxNodes
    · rw [if_pos hc]
      by_cases hgoal : (sameCell (getS states cursor).head target &&
          (mode == foodMode || (getS states cursor).parent.isSome)) = true
      · rw [if_pos hgoal]
        exact h
      · rw [if_neg hgoal]
        exact ih _ _ _ (expandState_cap target mode cursor _ states visited h)
    · rw [if_neg hc]
      exact h

/-- Claim C5: the search stores at most 20000 states, runs at most 20000 loop
iterations (its result is unchanged by any fuel beyond the node cap, so it
always terminates within the cap, returning `none` when the cap is exhausted
before a goal is dequeued), and the instrumented run agrees with `findPath`. -/
theorem findPath_node_cap (body : List Cell) (target : Cell) (mode : String) :
    (∀ fuel : Nat, maxNodes ≤ fuel →
      findPathLoop target mode fuel [initState body] [body] 0 =
        findPath body target mode) ∧
    (findPathFull body target mode).2.length ≤ maxNodes ∧
    (findPathFull body target mode).1 = findPath body target mode := by
  refine ⟨?_, ?_, ?_⟩
  · intro fuel hf
    unfold findPath
    exact findPathLoop_fuel_congr target mode fuel maxNodes [initState body]
      [body] 0 (by omega) (by omega)
  · refine findPathLoopFull_cap target mode maxNodes [initState body] [body] 0 ?_
    simp only [List.length_singleton, maxNodes]
    omega
  · exact findPathLoopFull_fst target mode maxNodes [initState body] [body] 0

/-- Witness for C5: with one extra unit of fuel beyond the cap the search on a
one-cell snake returns the same result, and its stored states stay within the
cap. -/
theorem findPath_node_cap_witness :
    findPathLoop { x := 2, y := 2 } foodMode 20001
      [initState [{ x := 2, y := 2 }]] [[{ x := 2, y := 2 }]] 0 =
      findPath [{ x := 2, y := 2 }] { x := 2, y := 2 } foodMode ∧
    (findPathFull [{ x := 2, y := 2 }] { x := 2, y := 2 } foodMode).2.length ≤
      maxNodes :=
  ⟨(findPath_node_cap [{ x := 2, y := 2 }] { x := 2, y := 2 } foodMode).1 20001
      (by norm_num [maxNodes]),
    (findPath_node_cap [{ x := 2, y := 2 }] { x := 2, y := 2 } foodMode).2.1⟩

set_option maxRecDepth 20000 in
/-- Claim C6: on the 28×28 grid with snake `[(14,14),(13,14),(12,14)]` and
food at `(14,10)`, the food-mode search returns `[up, up, up, up]`. -/
theorem findPath_food_example :
    findPath [{ x := 14, y := 14 }, { x := 13, y := 14 }, { x := 12, y := 14 }]
      { x := 14, y := 10 } foodMode = some [dirUp, dirUp, dirUp, dirUp] := by
  decide

/-! ### Reconstruction walk invariants -/

lemma getNeighbors_adj (c c' : Cell) (set : List Cell)
    (h : c' ∈ getNeighbors c set) : manhattan c c' = 1 := by
  unfold getNeighbors at h
  rw [List.mem_filter] at h
  obtain ⟨hmem, -⟩ := h
  simp only [List.mem_cons, List.not_mem_nil, or_false] at hmem
  rcases hmem with rfl | rfl | rfl | rfl <;> simp [manhattan]

lemma walkLoop_invariants (set : List Cell) :
    ∀ (fuel : Nat) (body visited : List Cell) (prev : Option Cell)
      (current : Cell) (out : List Cell),
      visited = body.reverse →
      (body ++ [current]).Nodup →
      List.Chain' (fun a b => manhattan a b = 1) (body ++ [current]) →
      walkLoop set fuel body visited prev current = some out →
      out.Nodup ∧ List.Chain' (fun a b => manhattan a b = 1) out := by
  intro fuel
  induction fuel with
  | zero => intro _ _ _ _ _ _ _ _ h; exact absurd h (by simp [walkLoop])
  | succ fuel ih =>
    intro body visited prev current out hv hnd hch h
    simp only [walkLoop] at h
    cases hnx : (getNeighbors current set).find?
        (fun cand => !(prevBlocks prev cand) &&
          !((current :: visited).contains cand)) with
    | none =>
      rw [hnx] at h
      cases h
      exact ⟨hnd, hch⟩
    | some nx =>
      rw [hnx] at h
      replace h : (if set.length + 2 < (body ++ [current]).length then
            (none : Option (List Cell))
          else walkLoop set fuel (body ++ [current]) (current :: visited)
            (some current) nx) = some out := h
      by_cases hg : set.length + 2 < (body ++ [current]).length
      · rw [if_pos hg] at h
        cases h
      · rw [if_neg hg] at h
        have hpnx := List.find?_some hnx
        rw [Bool.and_eq_true] at hpnx
        obtain ⟨-, hvisB⟩ := hpnx
        rw [Bool.not_eq_true'] at hvisB
        have hnmem : nx ∉ body ++ [current] := by
          intro hcontra
          have hmem2 : nx ∈ current :: visited := by
            rcases List.mem_append.mp hcontra with hb | hc
            · apply List.mem_cons_of_mem
              rw [hv]
              exact List.mem_reverse.mpr hb
            · simp only [List.mem_singleton] at hc
              subst hc
              exact List.mem_cons_self _ _
          have hmem3 : (current :: visited).contains nx = true := by
            simpa using hmem2
          rw [hvisB] at hmem3
          cases hmem3
        have hadj : manhattan current nx = 1 :=
          getNeighbors_adj current nx set (List.mem_of_find?_eq_some hnx)
        refine ih (body ++ [current]) (current :: visited) (some current) nx out
          ?_ ?_ ?_ h
        · rw [hv, List.reverse_append]
          simp
        · rw [List.nodup_append]
          refine ⟨hnd, List.nodup_singleton nx, ?_⟩
          intro x hx
          simp only [List.mem_singleton]
          intro hxa
          exact hnmem (hxa ▸ hx)
        · rw [List.chain'_append]
          refine ⟨hch, List.chain'_singleton nx, ?_⟩
          intro x hx y hy
          rw [List.getLast?_concat] at hx
          simp only [Option.mem_def, Option.some.injEq] at hx hy
          rw [← hx]
          simp only [List.head?_cons, Option.some.injEq] at hy
          rw [← hy]
          exact hadj

lemma walkBody_invariants (cluster : Cluster)
    (expectedHead prevHead : Option Cell) (b0 : List Cell)
    (h : walkBody cluster expectedHead prevHead = some b0) :
    b0.Nodup ∧ List.Chain' (fun a b => manhattan a b = 1) b0 := by
  unfold walkBody at h
  by_cases hc : cluster.cells = []
  · rw [if_pos hc] at h
    cases h
  · rw [if_neg hc] at h
    exact walkLoop_invariants cluster.set (cluster.set.length + 4) [] [] none
      (chooseHead cluster.cells cluster.set expectedHead prevHead) b0
      rfl (by simp) (List.chain'_singleton _) h

lemma finishBody_eq_take (expectedLen : Nat) (prevSnake : List Cell)
    (walkHead : Cell) (body0 : List Cell) (sn : Snake)
    (hlen : expectedLen ≤ body0.length)
    (h : finishBody expectedLen prevSnake walkHead body0 = some sn) :
    sn.body = body0.take expectedLen := by
  simp only [finishBody] at h
  by_cases hlt : expectedLen < body0.length
  · rw [if_pos hlt] at h
    have hlen1 : (body0.take expectedLen).length = expectedLen := by
      simp [List.length_take]
      omega
    rw [if_neg (by simp [hlen1]), if_neg (by rw [hlen1]; omega)] at h
    cases h
    rfl
  · have heq : body0.length = expectedLen := by omega
    rw [if_neg hlt, if_neg (by simp [heq]), if_neg (by omega)] at h
    cases h
    dsimp only
    rw [List.take_of_length_le (by omega)]

/-- Counterexample to C3 as stated: a successful reconstruction completed by
padding from the previous tick's body can contain consecutive cells at
Manhattan distance 10, not 1. -/
theorem reconstructSnake_invariants_cex :
    reconstructSnake
      { cells := [{ x := 5, y := 5 }], set := [{ x := 5, y := 5 }] } 2 none none
      [{ x := 0, y := 0 }] =
      some { head := { x := 5, y := 5 }, tail := { x := 0, y := 0 },
             body := [{ x := 5, y := 5 }, { x := 0, y := 0 }] } ∧
    ¬ List.Chain' (fun a b => manhattan a b = 1)
      [({ x := 5, y := 5 } : Cell), { x := 0, y := 0 }] := by
  constructor
  · decide
  · simp only [List.chain'_cons, List.chain'_singleton, and_true]
    decide

/-- Claim C3 (amended): every body returned by a successful
`reconstructSnake` whose greedy walk alone already produced at least
`expectedLen` cells (so the previous-tick padding contributes nothing) has
pairwise-distinct cells with consecutive cells at Manhattan distance exactly
1. -/
theorem reconstructSnake_walk_invariants (cluster : Cluster) (expectedLen : Nat)
    (expectedHead prevHead : Option Cell) (prevSnake : List Cell)
    (sn : Snake) (b0 : List Cell)
    (hw : walkBody cluster expectedHead prevHead = some b0)
    (hlen : expectedLen ≤ b0.length)
    (h : reconstructSnake cluster expectedLen expectedHead prevHead prevSnake =
      some sn) :
    sn.body.Nodup ∧ List.Chain' (fun a b => manhattan a b = 1) sn.body := by
  unfold reconstructSnake at h
  rw [hw] at h
  have hinv := walkBody_invariants cluster expectedHead prevHead b0 hw
  have hbody := finishBody_eq_take expectedLen prevSnake (b0.headD d0) b0 sn hlen h
  rw [hbody]
  exact ⟨List.Nodup.sublist (List.take_sublist _ _) hinv.1, hinv.2.take _⟩

/-- Witness for C3 (amended): a two-cell cluster walks to a two-cell body
with distinct, adjacent cells. -/
theorem reconstructSnake_walk_invariants_witness :
    ([{ x := 3, y := 3 }, { x := 3, y := 4 }] : List Cell).Nodup ∧
    List.Chain' (fun a b => manhattan a b = 1)
      [({ x := 3, y := 3 } : Cell), { x := 3, y := 4 }] :=
  reconstructSnake_walk_invariants
    { cells := [{ x := 3, y := 3 }, { x := 3, y := 4 }],
      set := [{ x := 3, y := 3 }, { x := 3, y := 4 }] } 2
    (some { x := 3, y := 3 }) none []
    { head := { x := 3, y := 3 }, tail := { x := 3, y := 4 },
      body := [{ x := 3, y := 3 }, { x := 3, y := 4 }] }
    [{ x := 3, y := 3 }, { x := 3, y := 4 }] (by decide) (by decide) (by decide)

/-! ### Refinement characterization -/

lemma uniqueLoop_eq (maxKeep : Nat) :
    ∀ (l : List (Cell × ℚ)) (acc : List Cell),
      (acc ++ l.map Prod.fst).Nodup →
      acc.length + l.length ≤ maxKeep →
      uniqueLoop maxKeep l acc = acc ++ l.map Prod.fst
  | [], acc, _, _ => by simp [uniqueLoop]
  | c :: rest, acc, hnd, hlen => by
    simp only [uniqueLoop]
    have hcmem : c.1 ∉ acc := by
      intro hmem
      rw [List.map_cons, List.nodup_append] at hnd
      exact hnd.2.2 hmem (List.mem_cons_self _ _)
    rw [if_neg hcmem]
    by_cases hbrk : maxKeep ≤ (acc ++ [c.1]).length
    · have hr : rest = [] := by
        rw [List.length_append, List.length_singleton] at hbrk
        simp only [List.length_cons] at hlen
        exact List.length_eq_zero.mp (by omega)
      subst hr
      rw [if_pos hbrk]
      simp
    · rw [if_neg hbrk]
      have hnd' : ((acc ++ [c.1]) ++ rest.map Prod.fst).Nodup := by
        rw [List.append_assoc, List.singleton_append]
        simpa using hnd
      have hlen' : (acc ++ [c.1]).length + rest.length ≤ maxKeep := by
        rw [List.length_append, List.length_singleton]
        simp only [List.length_cons] at hlen
        omega
      rw [uniqueLoop_eq maxKeep rest (acc ++ [c.1]) hnd' hlen']
      simp

lemma filteredSlice_sublist (cluster : Cluster) (metrics : Cell → ℚ)
    (expectedLen : Nat) :
    List.Sublist (filteredSlice cluster metrics expectedLen)
      (keptSlice cluster metrics expectedLen) := by
  simp only [filteredSlice]
  have h1 := (@List.filter_sublist (Nat × (Cell × ℚ))
    (fun p => decide (dynThreshold cluster metrics expectedLen ≤ p.2.2) ||
      decide (p.1 < expectedLen))
    (keptSlice cluster metrics expectedLen).enum).map Prod.snd
  rwa [List.enum_map_snd] at h1

lemma enriched_fst (cluster : Cluster) (metrics : Cell → ℚ) :
    (enrichedCells cluster metrics).map Prod.fst = cluster.cells := by
  unfold enrichedCells
  rw [List.map_map]
  have hid : (Prod.fst ∘ fun c => (c, metrics c)) = id := rfl
  rw [hid, List.map_id]

lemma keptSlice_fst_nodup (cluster : Cluster) (metrics : Cell → ℚ)
    (expectedLen : Nat) (hnd : cluster.cells.Nodup) :
    ((keptSlice cluster metrics expectedLen).map Prod.fst).Nodup := by
  have hperm := (List.perm_insertionSort (fun a b : Cell × ℚ => b.2 ≤ a.2)
    (enrichedCells cluster metrics)).map Prod.fst
  rw [enriched_fst] at hperm
  have hnods : (((enrichedCells cluster metrics).insertionSort
      (fun a b => b.2 ≤ a.2)).map Prod.fst).Nodup := hperm.nodup_iff.mpr hnd
  unfold keptSlice sortCellsDesc
  rw [List.map_take]
  exact List.Nodup.sublist (List.take_sublist _ _) hnods

/-- Counterexample to C7 as stated: with two equally bright cells and
`expectedLen = 1`, the cell at rank 1 has brightness exactly equal to (not
exceeding) the dynamic cutoff and rank outside `expectedLen`, yet it is
retained, because the code keeps cells whose brightness merely reaches the
cutoff (`>=`). -/
theorem refine_retention_cex :
    (({ x := 1, y := 0 } : Cell) ∈
      (refineSnakeCluster
        { cells := [{ x := 0, y := 0 }, { x := 1, y := 0 }],
          set := [{ x := 0, y := 0 }, { x := 1, y := 0 }] }
        (fun _ => 50) 1).cells) ∧
    ((keptSlice
        { cells := [{ x := 0, y := 0 }, { x := 1, y := 0 }],
          set := [{ x := 0, y := 0 }, { x := 1, y := 0 }] }
        (fun _ => 50) 1).getD 1 (d0, 0) = ({ x := 1, y := 0 }, 50)) ∧
    (dynThreshold
        { cells := [{ x := 0, y := 0 }, { x := 1, y := 0 }],
          set := [{ x := 0, y := 0 }, { x := 1, y := 0 }] }
        (fun _ => 50) 1 = 50) ∧
    ¬((50 : ℚ) > 50 ∨ (1 : Nat) < 1) := by
  refine ⟨?_, ?_, ?_, ?_⟩ <;> decide

/-- Claim C7 (amended): for every duplicate-free non-empty cluster and every
`expectedLen ≥ 1`, `refineSnakeCluster` returns at most
`max(expectedLen+6, min(clusterSize, expectedLen*2))` cells, all drawn from
the cluster, and an entry of the kept brightness-sorted slice is retained
exactly when its brightness reaches (is greater than or equal to) the dynamic
cutoff or its rank is within `expectedLen`. -/
theorem refine_retention (cluster : Cluster) (metrics : Cell → ℚ)
    (expectedLen : Nat) (hnd : cluster.cells.Nodup) (hne : cluster.cells ≠ [])
    (_hexp : 1 ≤ expectedLen) :
    (refineSnakeCluster cluster metrics expectedLen).cells.length ≤
      maxKeepOf cluster.cells.length expectedLen ∧
    (∀ c ∈ (refineSnakeCluster cluster metrics expectedLen).cells,
        c ∈ cluster.cells) ∧
    (∀ i, i < (keptSlice cluster metrics expectedLen).length →
      ((((keptSlice cluster metrics expectedLen).getD i (d0, 0)).1 ∈
          (refineSnakeCluster cluster metrics expectedLen).cells) ↔
        (dynThreshold cluster metrics expectedLen ≤
            ((keptSlice cluster metrics expectedLen).getD i (d0, 0)).2 ∨
          i < expectedLen))) := by
  have hsubl := filteredSlice_sublist cluster metrics expectedLen
  have hslice_le : (keptSlice cluster metrics expectedLen).length ≤
      maxKeepOf cluster.cells.length expectedLen := by
    unfold keptSlice
    exact List.length_take_le _ _
  have hnds := keptSlice_fst_nodup cluster metrics expectedLen hnd
  have hndf : ((filteredSlice cluster metrics expectedLen).map Prod.fst).Nodup :=
    List.Nodup.sublist (hsubl.map Prod.fst) hnds
  have hcells : (refineSnakeCluster cluster metrics expectedLen).cells =
      (filteredSlice cluster metrics expectedLen).map Prod.fst := by
    unfold refineSnakeCluster
    rw [if_neg hne]
    dsimp only
    rw [uniqueLoop_eq (maxKeepOf cluster.cells.length expectedLen)
      (filteredSlice cluster metrics expectedLen) [] (by simpa using hndf)
      (by simpa using le_trans hsubl.length_le hslice_le)]
    rfl
  refine ⟨?_, ?_, ?_⟩
  · rw [hcells, List.length_map]
    exact le_trans hsubl.length_le hslice_le
  · intro c hc
    rw [hcells] at hc
    have h1 : c ∈ (keptSlice cluster metrics expectedLen).map Prod.fst :=
      (hsubl.map Prod.fst).subset hc
    have h2 : c ∈ ((enrichedCells cluster metrics).insertionSort
        (fun a b => b.2 ≤ a.2)).map Prod.fst := by
      unfold keptSlice sortCellsDesc at h1
      rw [List.map_take] at h1
      exact (List.take_sublist _ _).subset h1
    have hperm := (List.perm_insertionSort (fun a b : Cell × ℚ => b.2 ≤ a.2)
      (enrichedCells cluster metrics)).map Prod.fst
    rw [enriched_fst] at hperm
    exact hperm.subset h2
  · intro i hi
    have ha : (keptSlice cluster metrics expectedLen).getD i (d0, 0) =
        (keptSlice cluster metrics expectedLen)[i] :=
      List.getD_eq_getElem _ _ hi
    rw [hcells, ha]
    constructor
    · intro hmem
      obtain ⟨p, hp, hpe⟩ := List.mem_map.mp hmem
      simp only [filteredSlice] at hp
      obtain ⟨jq, hjq, hjqe⟩ := List.mem_map.mp hp
      rw [List.mem_filter] at hjq
      obtain ⟨hjq_enum, hpred⟩ := hjq
      obtain ⟨j, q⟩ := jq
      have hj : (keptSlice cluster metrics expectedLen)[j]? = some q :=
        List.mk_mem_enum_iff_getElem?.mp hjq_enum
      obtain ⟨hjlt, hq⟩ := List.getElem?_eq_some.mp hj
      have hjlt2 : j < ((keptSlice cluster metrics expectedLen).map Prod.fst).length := by
        simpa using hjlt
      have hilt2 : i < ((keptSlice cluster metrics expectedLen).map Prod.fst).length := by
        simpa using hi
      have hfst : ((keptSlice cluster metrics expectedLen).map Prod.fst)[j] =
          ((keptSlice cluster metrics expectedLen).map Prod.fst)[i] := by
        rw [List.getElem_map, List.getElem_map, hq]
        rw [show q = p from hjqe]
        exact hpe
      have hji : j = i := (List.Nodup.getElem_inj_iff hnds).mp hfst
      subst hji
      simp only [Bool.or_eq_true, decide_eq_true_eq] at hpred
      rw [← hq] at hpred
      exact hpred
    · intro hpr
      refine List.mem_map.mpr ⟨(keptSlice cluster metrics expectedLen)[i], ?_, rfl⟩
      simp only [filteredSlice]
      refine List.mem_map.mpr
        ⟨(i, (keptSlice cluster metrics expectedLen)[i]), ?_, rfl⟩
      rw [List.mem_filter]
      refine ⟨List.mk_mem_enum_iff_getElem?.mpr (List.getElem?_eq_getElem hi), ?_⟩
      simp only [Bool.or_eq_true, decide_eq_true_eq]
      exact hpr

/-- Witness for C7 (amended): `cluRef` with `expectedLen = 2` keeps all three
cells within the cap, and the rank-2 entry (brightness 40 = cutoff) is
retained. -/
theorem refine_retention_witness :
    (refineSnakeCluster cluRef metRef 2).cells.length ≤
      maxKeepOf cluRef.cells.length 2 ∧
    ((((keptSlice cluRef metRef 2).getD 2 (d0, 0)).1 ∈
        (refineSnakeCluster cluRef metRef 2).cells) ↔
      (dynThreshold cluRef metRef 2 ≤
          ((keptSlice cluRef metRef 2).getD 2 (d0, 0)).2 ∨
        2 < 2)) :=
  ⟨(refine_retention cluRef metRef 2 (by decide) (by decide) (by decide)).1,
    (refine_retention cluRef metRef 2 (by decide) (by decide) (by decide)).2.2 2
      (by decide)⟩

end SnakeBot
